import Mathlib

/-
Verification of the BMCU_C-to-Klipper CH32V20x board overlay.

Shallow embedding of:
  * the AT8236 virtual motor-channel multiplexer
    (src/klipper-master/klipper-master/src/ch32v20x/gpio.c),
  * the TIM2 tick timer (src/a_supprimer/klipper/src/ch32v20x/timer.c),
  * the RV32 setjmp/longjmp primitive
    (src/matrix_flow/klipper_overrides/src/generic/setjmp.c).

Machine integers are modelled as Nat reduced mod 2^32 where overflow
matters; hardware register writes are modelled as explicit state or as
write traces; the fatal shutdown path is modelled as Except.error.
-/

namespace BMCU

/-- Truthiness of a C uint32 value, as computed by the `!!val` idiom. -/
def cbool (val : Nat) : Bool := val != 0

/-! ## AT8236 virtual motor channel (gpio.c) -/

/-- Driven levels of the two physical outputs of one AT8236 channel
(the high-side and low-side inputs of the H-bridge driver). -/
structure Phys where
  high : Bool
  low : Bool
deriving DecidableEq, Repr

/-- Which of the two physical pins of a channel a hardware write targets. -/
inductive HwPin where
  | highPin
  | lowPin
deriving DecidableEq, Repr

/-- One gpio_out_write_hw call issued by the channel logic: target pin and
level (val nonzero sets BSHR, zero sets BCR, i.e. drives the level). -/
structure HwWrite where
  pin : HwPin
  val : Bool
deriving DecidableEq, Repr

/-- Effect of a single gpio_out_write_hw call on the physical pin pair. -/
def applyHwWrite (p : Phys) (w : HwWrite) : Phys :=
  match w.pin with
  | .highPin => { p with high := w.val }
  | .lowPin => { p with low := w.val }

/-- struct at8236_channel, with the driven levels of the two owned physical
outputs substituted for the gpio_out register handles, plus ghost field
acquires counting how many times at8236_configure acquired and initialized
the physical pin pair (for the once-only property). -/
structure Channel where
  configured : Bool
  step_state : Bool
  dir_state : Bool
  phys : Phys
  acquires : Nat
deriving DecidableEq, Repr

/-- Zero-initialized channel (static struct at8236_channel at8236_channels[4]);
the physical outputs start low because gpio_init clears every OUTDR. -/
def chInit : Channel :=
  { configured := false, step_state := false, dir_state := false
    phys := { high := false, low := false }, acquires := 0 }

/-- The ordered sequence of gpio_out_write_hw calls issued by at8236_apply:
empty when the channel is unconfigured (early return), otherwise the two
writes of the branch selected by (step_state, dir_state), in source order. -/
def at8236_apply_writes (ch : Channel) : List HwWrite :=
  if !ch.configured then []
  else if ch.step_state then
    if ch.dir_state then
      [{ pin := .highPin, val := false }, { pin := .lowPin, val := true }]
    else
      [{ pin := .highPin, val := true }, { pin := .lowPin, val := false }]
  else
    [{ pin := .highPin, val := false }, { pin := .lowPin, val := false }]

/-- at8236_apply: issue the writes of the selected branch to the pins. -/
def at8236_apply (ch : Channel) : Channel :=
  { ch with phys := (at8236_apply_writes ch).foldl applyHwWrite ch.phys }

/-- The physical pin states observed after each individual gpio_out_write_hw
call inside at8236_apply (one entry per issued write). -/
def at8236_apply_trace (ch : Channel) : List Phys :=
  (((at8236_apply_writes ch).scanl applyHwWrite ch.phys).tail)

/-- at8236_configure: on the first call only, acquire the two physical
outputs via gpio_out_setup_hw with both driven low, zero both logical bits
and set the configured guard; a no-op when already configured. -/
def at8236_configure (ch : Channel) : Channel :=
  if ch.configured then ch
  else
    { configured := true, step_state := false, dir_state := false
      phys := { high := false, low := false }, acquires := ch.acquires + 1 }

/-- Update of the logical bit selected by the pin role: at8236_role pin is
the low bit of (pin - AT8236_VIRTUAL_BASE); role true is the dir pin, role
false the step pin. The stored value is !!val. -/
def setRole (role : Bool) (val : Nat) (ch : Channel) : Channel :=
  if role then { ch with dir_state := cbool val }
  else { ch with step_state := cbool val }

/-- Toggle (xor with 1) of the logical bit selected by the pin role. -/
def toggleRole (role : Bool) (ch : Channel) : Channel :=
  if role then { ch with dir_state := !ch.dir_state }
  else { ch with step_state := !ch.step_state }

/-- at8236_setup_pin restricted to the addressed channel: configure (first
time only), set the logical bit for the decoded role to !!val, re-apply.
The returned gpio_out handle is modelled separately (GpioOut.virt). -/
def at8236_setup_pin (role : Bool) (val : Nat) (ch : Channel) : Channel :=
  at8236_apply (setRole role val (at8236_configure ch))

/-- at8236_write restricted to the addressed channel: set the logical bit
for the decoded role to !!val and re-apply. -/
def at8236_write (role : Bool) (val : Nat) (ch : Channel) : Channel :=
  at8236_apply (setRole role val ch)

/-- at8236_toggle restricted to the addressed channel: invert the logical
bit for the decoded role and re-apply. -/
def at8236_toggle (role : Bool) (ch : Channel) : Channel :=
  at8236_apply (toggleRole role ch)

/-- One digital-output operation on one of a channel's two virtual pins,
identified by its role bit (at8236_role of the pin number). gpio_out_reset
on a virtual handle is routed to at8236_write by gpio_out_reset, so reset
carries a value like write does. -/
inductive Op where
  | setup (role : Bool) (val : Nat)
  | write (role : Bool) (val : Nat)
  | toggle (role : Bool)
  | reset (role : Bool) (val : Nat)
deriving DecidableEq, Repr

/-- Dispatch of one operation to the channel logic, as done by
gpio_out_setup / gpio_out_write / gpio_out_toggle_noirq / gpio_out_reset
for a virtual handle. -/
def runOp (ch : Channel) (op : Op) : Channel :=
  match op with
  | .setup role val => at8236_setup_pin role val ch
  | .write role val => at8236_write role val ch
  | .toggle role => at8236_toggle role ch
  | .reset role val => at8236_write role val ch

/-- Run of a sequence of operations on one channel. -/
def runOps (ch : Channel) (ops : List Op) : Channel := ops.foldl runOp ch

/-- The physical pin states observed after each individual hardware write
issued while executing one operation (the apply trace of the logically
updated channel; setup first passes through at8236_configure, whose two
gpio_out_setup_hw calls drive both pins low). -/
def runOp_trace (ch : Channel) (op : Op) : List Phys :=
  match op with
  | .setup role val =>
      let ch1 := at8236_configure ch
      (if ch.configured then [] else
        [{ high := false, low := ch.phys.low }, { high := false, low := false }])
        ++ at8236_apply_trace (setRole role val ch1)
  | .write role val => at8236_apply_trace (setRole role val ch)
  | .toggle role => at8236_apply_trace (toggleRole role ch)
  | .reset role val => at8236_apply_trace (setRole role val ch)

/-- Modelled from the spec: the (step_state, dir_state) to output truth
table stated by the specification, for comparison with at8236_apply. -/
def at8236_output_spec (step dir : Bool) : Phys :=
  if step then
    (if dir then { high := false, low := true }
     else { high := true, low := false })
  else { high := false, low := false }

/-- Channel invariant: configured, with the physical outputs in sync with
the logical bits. -/
def ChannelInv (ch : Channel) : Prop :=
  ch.configured = true ∧
    ch.phys = at8236_output_spec ch.step_state ch.dir_state

lemma at8236_apply_phys (ch : Channel) (h : ch.configured = true) :
    (at8236_apply ch).phys = at8236_output_spec ch.step_state ch.dir_state := by
  rcases ch with ⟨c, s, d, p, a⟩
  rcases p with ⟨ph, pl⟩
  cases h
  cases s <;> cases d <;> rfl

lemma at8236_apply_configured (ch : Channel) :
    (at8236_apply ch).configured = ch.configured := rfl

lemma at8236_apply_step (ch : Channel) :
    (at8236_apply ch).step_state = ch.step_state := rfl

lemma at8236_apply_dir (ch : Channel) :
    (at8236_apply ch).dir_state = ch.dir_state := rfl

lemma setRole_configured (role : Bool) (val : Nat) (ch : Channel) :
    (setRole role val ch).configured = ch.configured := by
  unfold setRole; cases role <;> rfl

lemma toggleRole_configured (role : Bool) (ch : Channel) :
    (toggleRole role ch).configured = ch.configured := by
  unfold toggleRole; cases role <;> rfl

lemma at8236_configure_configured (ch : Channel) :
    (at8236_configure ch).configured = true ∨ at8236_configure ch = ch := by
  unfold at8236_configure
  by_cases h : ch.configured
  · exact Or.inr (by simp [h])
  · exact Or.inl (by simp [h])

lemma channelInv_runOp (ch : Channel) (op : Op) (h : ChannelInv ch) :
    ChannelInv (runOp ch op) := by
  rcases h with ⟨hc, _⟩
  have hconf : ∀ role val, (setRole role val (at8236_configure ch)).configured = true := by
    intro role val
    rw [setRole_configured]
    unfold at8236_configure
    simp [hc]
  cases op with
  | setup role val =>
      refine ⟨?_, ?_⟩
      · simpa [runOp, at8236_setup_pin, at8236_apply_configured] using hconf role val
      · simpa [runOp, at8236_setup_pin, at8236_apply_step, at8236_apply_dir] using
          at8236_apply_phys _ (hconf role val)
  | write role val =>
      refine ⟨?_, ?_⟩
      · simp [runOp, at8236_write, at8236_apply_configured, setRole_configured, hc]
      · simpa [runOp, at8236_write, at8236_apply_step, at8236_apply_dir] using
          at8236_apply_phys (setRole role val ch) (by rw [setRole_configured]; exact hc)
  | toggle role =>
      refine ⟨?_, ?_⟩
      · simp [runOp, at8236_toggle, at8236_apply_configured, toggleRole_configured, hc]
      · simpa [runOp, at8236_toggle, at8236_apply_step, at8236_apply_dir] using
          at8236_apply_phys (toggleRole role ch) (by rw [toggleRole_configured]; exact hc)
  | reset role val =>
      refine ⟨?_, ?_⟩
      · simp [runOp, at8236_write, at8236_apply_configured, setRole_configured, hc]
      · simpa [runOp, at8236_write, at8236_apply_step, at8236_apply_dir] using
          at8236_apply_phys (setRole role val ch) (by rw [setRole_configured]; exact hc)

lemma channelInv_runOps (ops : List Op) (ch : Channel) (h : ChannelInv ch) :
    ChannelInv (runOps ch ops) := by
  induction ops generalizing ch with
  | nil => exact h
  | cons op rest ih => exact ih (runOp ch op) (channelInv_runOp ch op h)

lemma channelInv_first_setup (role : Bool) (val : Nat) (ch : Channel) :
    ChannelInv (runOp ch (.setup role val)) := by
  have hconf : (setRole role val (at8236_configure ch)).configured = true := by
    rw [setRole_configured]
    unfold at8236_configure
    by_cases h : ch.configured <;> simp [h]
  refine ⟨?_, ?_⟩
  · simpa [runOp, at8236_setup_pin, at8236_apply_configured] using hconf
  · simpa [runOp, at8236_setup_pin, at8236_apply_step, at8236_apply_dir] using
      at8236_apply_phys _ hconf

lemma at8236_output_spec_ne (step dir : Bool) :
    at8236_output_spec step dir ≠ { high := true, low := true } := by
  cases step <;> cases dir <;> decide

/-- C1: after a sequence of operations on a channel's virtual pins that
starts with a setup (every write/toggle/reset needs a gpio_out handle, and
virtual handles are produced only by gpio_out_setup), the physical pin pair
always equals the pure function of (step_state, dir_state): low-low when
step is clear, low-high when step and dir are set, high-low when step is
set and dir clear; in particular it is never high-high. -/
theorem at8236_c1_outputs_pure_function (role : Bool) (val : Nat)
    (ops : List Op) (n : Nat) :
    (runOps (runOp chInit (.setup role val)) (ops.take n)).phys
        = at8236_output_spec
            (runOps (runOp chInit (.setup role val)) (ops.take n)).step_state
            (runOps (runOp chInit (.setup role val)) (ops.take n)).dir_state
    ∧ (runOps (runOp chInit (.setup role val)) (ops.take n)).phys
        ≠ { high := true, low := true } := by
  have h := channelInv_runOps (ops.take n) _ (channelInv_first_setup role val chInit)
  refine ⟨h.2, ?_⟩
  rw [h.2]
  exact at8236_output_spec_ne _ _

/-- C2 (failing): on the reachable channel state with step and dir both set
(outputs low-high), writing dir to 0 makes at8236_apply take the branch that
asserts the high pin before deasserting the low pin, so the pair is
high-high transiently after the first of the two hardware writes. -/
theorem at8236_c2_transient_shoot_through :
    { high := true, low := true } ∈
      runOp_trace (runOps chInit [.setup false 1, .write true 1])
        (.write true 0) := by decide

/-- C6: configuring a channel's step pin then its dir pin gives the same
final channel state (logical bits, physical outputs, configured flag) as
the reverse order, the physical pin pair is acquired exactly once, and the
second setup does not reset the logical bit set by the first. -/
theorem at8236_c6_setup_order_independent (vs vd : Nat) :
    runOps chInit [.setup false vs, .setup true vd]
        = runOps chInit [.setup true vd, .setup false vs]
    ∧ (runOps chInit [.setup false vs, .setup true vd]).acquires = 1
    ∧ (runOps chInit [.setup false vs, .setup true vd]).step_state = cbool vs
    ∧ (runOps chInit [.setup false vs, .setup true vd]).dir_state = cbool vd := by
  cases h1 : cbool vs <;> cases h2 : cbool vd <;>
    simp [runOps, runOp, at8236_setup_pin, at8236_configure, setRole,
      at8236_apply, at8236_apply_writes, applyHwWrite, chInit, h1, h2]

/-- C9: on an unconfigured channel, write and toggle only update the logical
bit (the apply step issues no hardware write and leaves the outputs alone),
and the first setup zeroes both logical bits before applying, so logical
values written before configuration are discarded. -/
theorem at8236_c9_preconfig_writes_discarded (ch : Channel) (role : Bool)
    (val : Nat) (h : ch.configured = false) :
    at8236_write role val ch = setRole role val ch
    ∧ at8236_apply_trace (setRole role val ch) = []
    ∧ at8236_toggle role ch = toggleRole role ch
    ∧ at8236_apply_trace (toggleRole role ch) = []
    ∧ at8236_setup_pin role val ch =
        { configured := true
          step_state := if role then false else cbool val
          dir_state := if role then cbool val else false
          phys := at8236_output_spec (if role then false else cbool val)
                    (if role then cbool val else false)
          acquires := ch.acquires + 1 } := by
  rcases ch with ⟨c, s, d, p, a⟩
  cases h
  cases role <;> cases h3 : cbool val <;>
    simp [at8236_write, at8236_toggle, at8236_setup_pin, at8236_configure,
      setRole, toggleRole, at8236_apply, at8236_apply_writes, applyHwWrite,
      at8236_apply_trace, at8236_output_spec, h3]

theorem at8236_c9_witness :
    chInit.configured = false
    ∧ at8236_write true 5 chInit = setRole true 5 chInit :=
  ⟨rfl, (at8236_c9_preconfig_writes_discarded chInit true 5 rfl).1⟩

/-- C10: on a configured channel whose outputs are in sync with its logical
bits (every channel reachable through the public interface), toggling the
same virtual pin twice restores the whole channel state, outputs included,
and writing the same value twice equals writing it once. -/
theorem at8236_c10_toggle_involution_write_idempotent (ch : Channel)
    (role : Bool) (val : Nat) (hc : ch.configured = true)
    (hs : ch.phys = at8236_output_spec ch.step_state ch.dir_state) :
    at8236_toggle role (at8236_toggle role ch) = ch
    ∧ at8236_write role val (at8236_write role val ch)
        = at8236_write role val ch := by
  rcases ch with ⟨c, s, d, p, a⟩
  cases hc
  simp only [Channel.mk.injEq] at hs
  cases role <;> cases s <;> cases d <;> cases h3 : cbool val <;>
    simp_all [at8236_toggle, at8236_write, toggleRole, setRole, at8236_apply,
      at8236_apply_writes, applyHwWrite, at8236_output_spec]

theorem at8236_c10_witness :
    (⟨true, false, false, ⟨false, false⟩, 1⟩ : Channel).configured = true
    ∧ at8236_toggle true (at8236_toggle true ⟨true, false, false, ⟨false, false⟩, 1⟩)
        = ⟨true, false, false, ⟨false, false⟩, 1⟩ :=
  ⟨rfl, (at8236_c10_toggle_involution_write_idempotent _ true 0 rfl (by decide)).1⟩

/-! ## TIM2 tick timer (timer.c) -/

/-- Modulus of the 32-bit tick arithmetic. -/
def U32 : Nat := 4294967296

/-- Reinterpretation of a uint32 bit pattern (any Nat, reduced mod 2^32) as
a signed int32, the (int32) casts of timer.c. -/
def toInt32 (n : Nat) : Int :=
  if n % U32 < 2147483648 then ((n % U32 : Nat) : Int)
  else ((n % U32 : Nat) : Int) - (U32 : Int)

/-- Timer state: the static timer_base plus the TIM2 registers the module
reads and writes (CNT, ATRLR auto-reload period, and the update-pending
flag of INTFR). -/
structure TimerState where
  timer_base : Nat
  cnt : Nat
  atrlr : Nat
  uif : Bool
deriving DecidableEq, Repr

/-- current_ticks: timer_base + TIM2 counter, in uint32 arithmetic. -/
def current_ticks (s : TimerState) : Nat := (s.timer_base + s.cnt) % U32

/-- timer_read_time is current_ticks. -/
def timer_read_time (s : TimerState) : Nat := current_ticks s

/-- schedule_next: rebase timer_base to now, program ATRLR with the signed
difference next - now clamped below at 2, zero the counter; the SWEVGR
update event that makes the new period take effect at once is expressed by
the state transition itself. -/
def schedule_next (next : Nat) (s : TimerState) : TimerState :=
  let now := current_ticks s
  let diff := toInt32 (next + U32 - now)
  let diff := if diff < 2 then 2 else diff
  { s with timer_base := now, atrlr := diff.toNat, cnt := 0 }

/-- Steps the TIM2 interrupt handler performs, in source order. -/
inductive TimerEvent where
  | clearUif
  | addPeriod
  | irqOff
  | dispatchMany
  | scheduleNextEv
  | irqOn
deriving DecidableEq, Repr

/-- TIM2_IRQHandler: clear the update flag, fold one ATRLR period into
timer_base, and inside the interrupt-disabled window call the external
timer_dispatch_many (its result is the parameter next) and reschedule.
The event list records the order in which the source performs these. -/
def TIM2_IRQHandler (next : Nat) (s : TimerState) : TimerState × List TimerEvent :=
  let s1 : TimerState := { s with uif := false }
  let s2 : TimerState := { s1 with timer_base := (s1.timer_base + s1.atrlr) % U32 }
  (schedule_next next s2,
   [.clearUif, .addPeriod, .irqOff, .dispatchMany, .scheduleNextEv, .irqOn])

/-- C3: schedule_next rebases timer_base to now, zeroes the counter, sets
the period to the signed difference next - now clamped below at 2, and the
armed deadline (new timer_base + period) is next when that signed
difference is at least 2 and now + 2 otherwise; the signed distance from
the post-schedule read time to the deadline is always at least 2. -/
theorem timer_c3_schedule_next_deadline (next : Nat) (s : TimerState) :
    (schedule_next next s).timer_base = current_ticks s
    ∧ (schedule_next next s).cnt = 0
    ∧ (schedule_next next s).atrlr =
        (if toInt32 (next + U32 - current_ticks s) < 2 then 2
         else toInt32 (next + U32 - current_ticks s)).toNat
    ∧ timer_read_time (schedule_next next s) = current_ticks s
    ∧ ((schedule_next next s).timer_base + (schedule_next next s).atrlr) % U32
        = (if toInt32 (next + U32 - current_ticks s) < 2
           then (current_ticks s + 2) % U32
           else next % U32)
    ∧ 2 ≤ toInt32 (((schedule_next next s).timer_base
            + (schedule_next next s).atrlr) % U32
          + U32 - timer_read_time (schedule_next next s)) := by
  have hnow : (s.timer_base + s.cnt) % U32 < U32 := by
    unfold U32; omega
  refine ⟨rfl, rfl, rfl, ?_, ?_, ?_⟩
  · simp only [timer_read_time, current_ticks, schedule_next]
    unfold U32 at *; omega
  · simp only [schedule_next, current_ticks, toInt32] at *
    unfold U32 at *
    split_ifs at * <;> omega
  · simp only [timer_read_time, schedule_next, current_ticks, toInt32] at *
    unfold U32 at *
    split_ifs at * <;> omega

/-- C4: the interrupt handler performs, in order, clear-pending, fold one
period into timer_base, disable interrupts, dispatch, reschedule with the
dispatched deadline, re-enable interrupts; and when the counter is 0 at
entry (the update event reloaded it), the net effect on timer_base of the
whole handler, the rebase inside schedule_next included, is an increase by
exactly the one current auto-reload period, mod 2^32. -/
theorem timer_c4_handler_one_period (next : Nat) (s : TimerState)
    (h : s.cnt = 0) :
    (TIM2_IRQHandler next s).2 =
      [TimerEvent.clearUif, TimerEvent.addPeriod, TimerEvent.irqOff,
       TimerEvent.dispatchMany, TimerEvent.scheduleNextEv, TimerEvent.irqOn]
    ∧ (TIM2_IRQHandler next s).1.timer_base = (s.timer_base + s.atrlr) % U32
    ∧ (TIM2_IRQHandler next s).1.uif = false := by
  refine ⟨rfl, ?_, rfl⟩
  simp only [TIM2_IRQHandler, schedule_next, current_ticks, h]
  unfold U32; omega

theorem timer_c4_witness :
    (⟨0, 0, 1000, true⟩ : TimerState).cnt = 0
    ∧ (TIM2_IRQHandler 500 ⟨0, 0, 1000, true⟩).1.timer_base
        = (0 + 1000) % U32 :=
  ⟨rfl, (timer_c4_handler_one_period 500 ⟨0, 0, 1000, true⟩ rfl).2.1⟩

/-- One observable transition of the timer: a hardware counter tick below
the period, a schedule_next call, or the period-elapsed update event (the
counter wraps to 0 and pends the interrupt) followed by its handler with
the deadline the dispatcher returned. -/
inductive TimerStep : TimerState → TimerState → Prop where
  | tick (s : TimerState) (h : s.cnt < s.atrlr) :
      TimerStep s { s with cnt := s.cnt + 1 }
  | schedule (next : Nat) (s : TimerState) :
      TimerStep s (schedule_next next s)
  | interrupt (next : Nat) (s : TimerState) (h : s.cnt = s.atrlr) :
      TimerStep s (TIM2_IRQHandler next { s with cnt := 0, uif := true }).1

/-- C5: across every timer operation the extended clock
timer_base + counter is monotone mod 2^32: the signed 32-bit difference of
the read times across one step is never negative. -/
theorem timer_c5_monotonic (s s2 : TimerState) (h : TimerStep s s2) :
    0 ≤ toInt32 (timer_read_time s2 + U32 - timer_read_time s) := by
  cases h with
  | tick s h =>
      simp only [timer_read_time, current_ticks, toInt32]
      unfold U32
      split_ifs <;> omega
  | schedule next s =>
      simp only [timer_read_time, current_ticks, schedule_next, toInt32]
      unfold U32
      split_ifs <;> omega
  | interrupt next s h =>
      simp only [timer_read_time, current_ticks, TIM2_IRQHandler,
        schedule_next, toInt32, h]
      unfold U32
      split_ifs <;> omega

theorem timer_c5_witness :
    0 ≤ toInt32 (timer_read_time ⟨0, 1, 1000, false⟩ + U32
          - timer_read_time ⟨0, 0, 1000, false⟩) :=
  timer_c5_monotonic ⟨0, 0, 1000, false⟩ ⟨0, 1, 1000, false⟩
    (TimerStep.tick ⟨0, 0, 1000, false⟩ (by decide))

/-! ## setjmp / longjmp (setjmp.c, setjmp.h) -/

/-- Machine registers the primitive touches: return address, stack pointer,
the 12 callee-saved registers s0-s11, the return-value register a0, and the
program counter for the control transfer. -/
structure Regs where
  ra : Nat
  sp : Nat
  s0 : Nat
  s1 : Nat
  s2 : Nat
  s3 : Nat
  s4 : Nat
  s5 : Nat
  s6 : Nat
  s7 : Nat
  s8 : Nat
  s9 : Nat
  s10 : Nat
  s11 : Nat
  a0 : Nat
  pc : Nat
deriving DecidableEq, Repr

/-- struct __jmp_buf: the 14 saved 32-bit words. -/
structure JmpBuf where
  ra : Nat
  sp : Nat
  s0 : Nat
  s1 : Nat
  s2 : Nat
  s3 : Nat
  s4 : Nat
  s5 : Nat
  s6 : Nat
  s7 : Nat
  s8 : Nat
  s9 : Nat
  s10 : Nat
  s11 : Nat
deriving DecidableEq, Repr

/-- setjmp: store ra, sp and s0-s11 into the buffer (the 14 sw
instructions, in order) and return 0 on the forward path. -/
def setjmp (r : Regs) : JmpBuf × Nat :=
  ({ ra := r.ra, sp := r.sp, s0 := r.s0, s1 := r.s1, s2 := r.s2, s3 := r.s3
     s4 := r.s4, s5 := r.s5, s6 := r.s6, s7 := r.s7, s8 := r.s8, s9 := r.s9
     s10 := r.s10, s11 := r.s11 }, 0)

/-- longjmp: coerce val 0 to 1, reload the 14 saved words (the lw
instructions), move the coerced value into a0, and jump to the reloaded ra
(jr ra), so execution resumes at the checkpoint call site and never at the
caller of longjmp; the resulting register state is the value of this
function. -/
def longjmp (env : JmpBuf) (val : Nat) (r : Regs) : Regs :=
  let val2 := if val = 0 then 1 else val
  { ra := env.ra, sp := env.sp, s0 := env.s0, s1 := env.s1, s2 := env.s2
    s3 := env.s3, s4 := env.s4, s5 := env.s5, s6 := env.s6, s7 := env.s7
    s8 := env.s8, s9 := env.s9, s10 := env.s10, s11 := env.s11
    a0 := val2, pc := env.ra }

/-- C7: setjmp returns 0 forward after saving the 14-word context; longjmp
transfers control to the saved return address (never back to its own
caller), the value observed at the checkpoint site is val coerced so that
0 becomes 1 and is therefore never 0; after longjmp over a setjmp buffer
the stack pointer and all callee-saved registers are bit-identical to the
checkpoint moment and the control point is the checkpoint return address. -/
theorem setjmp_c7_checkpoint_restore (r rl : Regs) (env : JmpBuf) (val : Nat) :
    (setjmp r).2 = 0
    ∧ (setjmp r).1 =
        { ra := r.ra, sp := r.sp, s0 := r.s0, s1 := r.s1, s2 := r.s2
          s3 := r.s3, s4 := r.s4, s5 := r.s5, s6 := r.s6, s7 := r.s7
          s8 := r.s8, s9 := r.s9, s10 := r.s10, s11 := r.s11 }
    ∧ (longjmp env val rl).pc = env.ra
    ∧ (longjmp env val rl).a0 = (if val = 0 then 1 else val)
    ∧ (longjmp env val rl).a0 ≠ 0
    ∧ (longjmp (setjmp r).1 0 rl).a0 = 1
    ∧ (longjmp (setjmp r).1 val rl).sp = r.sp
    ∧ (longjmp (setjmp r).1 val rl).s0 = r.s0
    ∧ (longjmp (setjmp r).1 val rl).s1 = r.s1
    ∧ (longjmp (setjmp r).1 val rl).s2 = r.s2
    ∧ (longjmp (setjmp r).1 val rl).s3 = r.s3
    ∧ (longjmp (setjmp r).1 val rl).s4 = r.s4
    ∧ (longjmp (setjmp r).1 val rl).s5 = r.s5
    ∧ (longjmp (setjmp r).1 val rl).s6 = r.s6
    ∧ (longjmp (setjmp r).1 val rl).s7 = r.s7
    ∧ (longjmp (setjmp r).1 val rl).s8 = r.s8
    ∧ (longjmp (setjmp r).1 val rl).s9 = r.s9
    ∧ (longjmp (setjmp r).1 val rl).s10 = r.s10
    ∧ (longjmp (setjmp r).1 val rl).s11 = r.s11
    ∧ (longjmp (setjmp r).1 val rl).pc = r.ra := by
  refine ⟨rfl, rfl, rfl, rfl, ?_, rfl, rfl, rfl, rfl, rfl, rfl, rfl, rfl,
    rfl, rfl, rfl, rfl, rfl, rfl, rfl⟩
  simp only [longjmp]
  split_ifs with h <;> omega

/-! ## Physical GPIO dispatch and the fatal invalid-pin path (gpio.c) -/

/-- Shutdown message of gpio_pin_to_regs. -/
def invalidGPIO : String := "Invalid GPIO"

/-- The five mapped GPIO ports. -/
inductive Port where
  | A
  | B
  | C
  | D
  | E
deriving DecidableEq, Repr

/-- digital_regs: ports A through E, all mapped (no null entry). -/
def digital_regs : List (Option Port) :=
  [some .A, some .B, some .C, some .D, some .E]

/-- GPIO2BIT: the output bit mask of a pin. -/
def GPIO2BIT (pin : Nat) : Nat := 2 ^ (pin % 16)

/-- gpio_pin_to_regs: look up the port pin / 16 (GPIO2PORT); when the port
index is out of range, or the entry is null, call shutdown, modelled as
Except.error with no recoverable return. -/
def gpio_pin_to_regs (pin : Nat) : Except String Port :=
  if h : pin / 16 < digital_regs.length then
    match digital_regs.get ⟨pin / 16, h⟩ with
    | some r => .ok r
    | none => .error invalidGPIO
  else .error invalidGPIO

/-- Physical half of a gpio_out handle: register block and bit mask. -/
structure GpioOutHw where
  port : Port
  bit : Nat
deriving DecidableEq, Repr

/-- struct gpio_out after setup: regs null plus the virtual pin number for
an AT8236 pin, or the physical register/bit pair. -/
inductive GpioOut where
  | virt (pin : Nat)
  | hw (g : GpioOutHw)

/-- gpio_peripheral: resolves the port (fatal on invalid pin) and then
performs configuration register writes, which are outside the model. -/
def gpio_peripheral (pin mode : Nat) (pull_up : Int) : Except String Unit :=
  match gpio_pin_to_regs pin with
  | .error m => .error m
  | .ok _ => .ok ()

/-- gpio_out_setup_hw: resolves the port (fatal on invalid pin), enables
the port clock and resets the pin (register writes outside the model), and
returns the physical handle. -/
def gpio_out_setup_hw (pin val : Nat) : Except String GpioOutHw :=
  match gpio_pin_to_regs pin with
  | .error m => .error m
  | .ok regs => .ok { port := regs, bit := GPIO2BIT pin }

/-- gpio_in_setup: resolves the port (fatal on invalid pin), then
configures input mode via gpio_in_reset / gpio_peripheral on this same,
already validated, pin. -/
def gpio_in_setup (pin : Nat) (pull_up : Int) : Except String (Port × Nat) :=
  match gpio_pin_to_regs pin with
  | .error m => .error m
  | .ok regs => .ok (regs, GPIO2BIT pin)

/-- is_at8236_virtual, with the virtual-range base and stride
(BMCU_C_AT8236_PIN_BASE, BMCU_C_AT8236_PIN_STRIDE) as parameters: their
numeric values come from a header that is not part of the sources. -/
def is_at8236_virtual (base stride pin : Nat) : Bool :=
  base ≤ pin && pin < base + stride * 4

/-- at8236_index: channel index of a virtual pin. -/
def at8236_index (base stride pin : Nat) : Nat := (pin - base) / stride

/-- at8236_role: low bit of the virtual pin offset (the C expression
(pin - base) & 0x1); true selects the dir role. -/
def at8236_role (base pin : Nat) : Bool := (pin - base) % 2 == 1

/-- gpio_out_setup: dispatch on the virtual range first, then fall through
to the physical implementation; the channel array is passed as state. -/
def gpio_out_setup (base stride : Nat) (chs : Nat → Channel) (pin val : Nat) :
    Except String (GpioOut × (Nat → Channel)) :=
  if is_at8236_virtual base stride pin then
    .ok (.virt pin,
      fun i => if i = at8236_index base stride pin
        then at8236_setup_pin (at8236_role base pin) val
               (chs (at8236_index base stride pin))
        else chs i)
  else
    match gpio_out_setup_hw pin val with
    | .error m => .error m
    | .ok g => .ok (.hw g, chs)

/-- C8: for a non-virtual pin whose port index pin / 16 is not one of the
five mapped ports, gpio_out_setup, gpio_peripheral and gpio_in_setup all
end in the non-returning shutdown (the Except error), with no recoverable
success path. -/
theorem gpio_c8_invalid_pin_fatal (base stride pin val mode : Nat)
    (pull_up : Int) (chs : Nat → Channel)
    (hv : is_at8236_virtual base stride pin = false)
    (hp : 5 ≤ pin / 16) :
    gpio_out_setup base stride chs pin val = .error invalidGPIO
    ∧ gpio_peripheral pin mode pull_up = .error invalidGPIO
    ∧ gpio_in_setup pin pull_up = .error invalidGPIO := by
  have hfat : gpio_pin_to_regs pin = .error invalidGPIO := by
    unfold gpio_pin_to_regs
    rw [dif_neg]
    simp only [digital_regs, List.length]
    omega
  refine ⟨?_, ?_, ?_⟩ <;>
    simp [gpio_out_setup, gpio_out_setup_hw, gpio_peripheral, gpio_in_setup,
      hfat, hv]

theorem gpio_c8_witness :
    is_at8236_virtual 1000 2 80 = false
    ∧ 5 ≤ 80 / 16
    ∧ gpio_out_setup 1000 2 (fun _ => chInit) 80 0 = .error invalidGPIO :=
  ⟨by decide, by decide,
    (gpio_c8_invalid_pin_fatal 1000 2 80 0 0 (-1) (fun _ => chInit)
      (by decide) (by decide)).1⟩

end BMCU
